import Mathlib

/-
  A verification development for the content-addressed OCI image store
  (package `storage` of the zot registry).

  The storage engine is shallowly embedded: the filesystem is modelled as a
  finite map from paths to inodes together with an inode table (hard links are
  two paths bound to one inode), Go `error` results become `Option ZotErr`
  following Go's `(value, err)` convention, and the SHA-256 digester and the
  JSON (un)marshaller — external libraries for the source — are parameters of
  the embedded operations.  Paths are represented as lists of path segments;
  Go's `path.Join` on clean, slash-free segments is exactly list append, and
  this representation is injective on the segment tuples the store builds.

  The dedupe index (`cache.go`) is not among the provided sources; it is
  modelled from the spec (section 4.4), see `Cache` below.  The GC walker
  lives in the external umoci dependency; it is modelled from the spec
  (section "Garbage collection policy"), see `runGC` below, while its policy
  `ifOlderThan` is embedded from the source.
-/

namespace Zot

/-- One byte of file content (kept as `Nat`; only equality of contents matters). -/
abbrev Bytes := List Nat

/-- A filesystem path, as the list of its path segments. -/
abbrev Path := List String

/-- The error kinds of `errors.go`.  `ioError` stands for any raw operating
system error (`*PathError`, `*LinkError`, …) that the source returns
unwrapped. -/
inductive ZotErr where
  | repoNotFound
  | repoBadVersion
  | manifestNotFound
  | badManifest
  | blobNotFound
  | badBlobDigest
  | uploadNotFound
  | badUploadRange
  | cacheMiss
  | ioError
deriving DecidableEq, Repr

/- ### Association-list helpers (finite maps) -/

/-- Lookup in an association list (first binding wins). -/
def alookup {κ ν : Type} [DecidableEq κ] : List (κ × ν) → κ → Option ν
  | [], _ => none
  | e :: rest, k => if e.1 = k then some e.2 else alookup rest k

/-- Remove every binding of a key from an association list. -/
def aremove {κ ν : Type} [DecidableEq κ] : List (κ × ν) → κ → List (κ × ν)
  | [], _ => []
  | e :: rest, k => if e.1 = k then aremove rest k else e :: aremove rest k

/-- Overwrite-or-add a binding (map semantics; binding order is immaterial to
`alookup`). -/
def aset {κ ν : Type} [DecidableEq κ] (l : List (κ × ν)) (k : κ) (v : ν) :
    List (κ × ν) :=
  (k, v) :: aremove l k

@[simp]
theorem alookup_nil {κ ν : Type} [DecidableEq κ] (k : κ) :
    alookup ([] : List (κ × ν)) k = none := rfl

@[simp]
theorem alookup_cons_self {κ ν : Type} [DecidableEq κ] (k : κ) (v : ν)
    (l : List (κ × ν)) : alookup ((k, v) :: l) k = some v := by
  simp [alookup]

theorem alookup_cons_other {κ ν : Type} [DecidableEq κ] {k k' : κ} (v : ν)
    (l : List (κ × ν)) (h : k' ≠ k) : alookup ((k, v) :: l) k' = alookup l k' := by
  have hkk : ¬ (k = k') := fun hc => h hc.symm
  simp [alookup, hkk]

@[simp]
theorem alookup_aremove_self {κ ν : Type} [DecidableEq κ] (l : List (κ × ν))
    (k : κ) : alookup (aremove l k) k = none := by
  induction l with
  | nil => rfl
  | cons e rest ih =>
    by_cases h : e.1 = k
    · simp [aremove, h, ih]
    · simp [aremove, h, alookup, ih]

theorem alookup_aremove_other {κ ν : Type} [DecidableEq κ] (l : List (κ × ν))
    {k k' : κ} (h : k' ≠ k) : alookup (aremove l k) k' = alookup l k' := by
  have hkk : ¬ (k = k') := fun hc => h hc.symm
  induction l with
  | nil => rfl
  | cons e rest ih =>
    by_cases he : e.1 = k
    · simp [aremove, he, alookup, hkk, ih]
    · simp [aremove, he, alookup, ih]

@[simp]
theorem alookup_aset_self {κ ν : Type} [DecidableEq κ] (l : List (κ × ν))
    (k : κ) (v : ν) : alookup (aset l k v) k = some v := by
  simp [aset]

theorem alookup_aset_other {κ ν : Type} [DecidableEq κ] (l : List (κ × ν))
    {k k' : κ} (v : ν) (h : k' ≠ k) : alookup (aset l k v) k' = alookup l k' := by
  simp [aset, alookup_cons_other _ _ h, alookup_aremove_other _ h]

/- ### Digests -/

/-- A parsed content digest, as produced by `godigest.Parse`: an algorithm and
the encoded (hex) part. -/
structure DigestV where
  alg : String
  enc : String
deriving DecidableEq, Repr

/-- `Digest.String()`: the canonical `alg:hex` form. -/
def digStr (d : DigestV) : String := d.alg ++ ":" ++ d.enc

def isHexLower (c : Char) : Bool :=
  decide (('0' ≤ c ∧ c ≤ '9') ∨ ('a' ≤ c ∧ c ≤ 'f'))

/-- `godigest.Parse` restricted to the write path's algorithm: accepts exactly
the canonical `sha256:<64-hex-lower>` form (spec 4.2: "Always SHA-256 for
write paths … Parsing rejects other algorithms"). -/
def parseDigest (s : String) : Option DigestV :=
  let cs := s.data
  if cs.take 7 = "sha256:".data ∧ (cs.drop 7).length = 64 ∧ (cs.drop 7).all isHexLower
  then some ⟨"sha256", String.mk (cs.drop 7)⟩ else none

/- ### The filesystem model -/

/-- A POSIX-style filesystem fragment: a binding of paths to inode numbers
(hard links are several paths bound to one inode), an inode table holding file
contents, a set of directories, and a fresh-inode counter.  File size is the
length of the content; `os.Stat` failures are modelled as absence (the only
failure the source's paths distinguish). -/
structure Fs where
  paths : List (Path × Nat)
  inodes : List (Nat × Bytes)
  dirs : List Path
  nextIno : Nat
deriving DecidableEq, Repr

/-- The inode bound at a path (`os.Stat` succeeding, exposing inode identity). -/
def Fs.ino (fs : Fs) (p : Path) : Option Nat := alookup fs.paths p

/-- The content of the file at a path (`os.Open` + read to end). -/
def Fs.content (fs : Fs) (p : Path) : Option Bytes :=
  match fs.ino p with
  | some i => alookup fs.inodes i
  | none => none

def Fs.fileExists (fs : Fs) (p : Path) : Bool := (fs.ino p).isSome

def Fs.isDir (fs : Fs) (p : Path) : Bool := decide (p ∈ fs.dirs)

/-- Bind a path to an inode, replacing any previous binding of that path. -/
def Fs.setPath (fs : Fs) (p : Path) (i : Nat) : Fs :=
  { fs with paths := aset fs.paths p i }

/-- Drop the binding of a path (the inode table is left as is). -/
def Fs.removePath (fs : Fs) (p : Path) : Fs :=
  { fs with paths := aremove fs.paths p }

/-- `os.Rename src dst`: fails (ENOENT) iff `src` is absent; atomically moves
the binding, silently replacing `dst`. -/
def Fs.rename (fs : Fs) (src dst : Path) : Option Fs :=
  match fs.ino src with
  | none => none
  | some i => some ((fs.removePath src).setPath dst i)

/-- `os.Link src dst`: fails if `src` is absent (ENOENT) or `dst` already
exists (EEXIST); otherwise binds `dst` to `src`'s inode. -/
def Fs.link (fs : Fs) (src dst : Path) : Option Fs :=
  match fs.ino src with
  | none => none
  | some i => if fs.fileExists dst then none else some (fs.setPath dst i)

/-- `os.Remove p` on a file: fails (ENOENT) iff `p` is absent. -/
def Fs.remove (fs : Fs) (p : Path) : Option Fs :=
  if fs.fileExists p then some (fs.removePath p) else none

/-- Create-or-truncate (`os.OpenFile` with `O_CREATE|O_TRUNC`, `os.Create`,
`ioutil.WriteFile`): an existing file keeps its inode and gets content `b`; a
fresh file gets a fresh inode. -/
def Fs.createFile (fs : Fs) (p : Path) (b : Bytes) : Fs :=
  match fs.ino p with
  | some i => { fs with inodes := aset fs.inodes i b }
  | none =>
    { fs with
      paths := aset fs.paths p fs.nextIno
      inodes := aset fs.inodes fs.nextIno b
      nextIno := fs.nextIno + 1 }

/-- Write `b` at byte offset `off` (`O_WRONLY|O_CREATE`, seek, copy); with
`off` equal to the current size this is an append. -/
def Fs.writeAt (fs : Fs) (p : Path) (off : Nat) (b : Bytes) : Fs :=
  match fs.ino p with
  | some i =>
    let old := (alookup fs.inodes i).getD []
    { fs with inodes := aset fs.inodes i (old.take off ++ b ++ old.drop (off + b.length)) }
  | none =>
    { fs with
      paths := aset fs.paths p fs.nextIno
      inodes := aset fs.inodes fs.nextIno (List.replicate off 0 ++ b)
      nextIno := fs.nextIno + 1 }

/-- All nonempty segment-chains leading to a path. -/
def dirChain (p : Path) : List Path :=
  (List.range p.length).map (fun n => p.take (n + 1))

/-- `os.MkdirAll`: records the directory and all its ancestors. -/
def Fs.mkdirAll (fs : Fs) (p : Path) : Fs :=
  { fs with dirs := dirChain p ++ fs.dirs }

@[simp]
theorem Fs.ino_setPath_self (fs : Fs) (p : Path) (i : Nat) :
    (fs.setPath p i).ino p = some i := by
  simp [Fs.setPath, Fs.ino]

theorem Fs.ino_setPath_other (fs : Fs) {p q : Path} (i : Nat) (h : q ≠ p) :
    (fs.setPath p i).ino q = fs.ino q := by
  simp [Fs.setPath, Fs.ino, alookup_aset_other _ _ h]

@[simp]
theorem Fs.ino_removePath_self (fs : Fs) (p : Path) :
    (fs.removePath p).ino p = none := by
  simp [Fs.removePath, Fs.ino]

theorem Fs.ino_removePath_other (fs : Fs) {p q : Path} (h : q ≠ p) :
    (fs.removePath p).ino q = fs.ino q := by
  simp [Fs.removePath, Fs.ino, alookup_aremove_other _ h]

theorem Fs.content_setPath_other (fs : Fs) {p q : Path} (i : Nat) (h : q ≠ p) :
    (fs.setPath p i).content q = fs.content q := by
  unfold Fs.content
  rw [Fs.ino_setPath_other fs i h]
  cases fs.ino q <;> rfl

theorem Fs.content_removePath_other (fs : Fs) {p q : Path} (h : q ≠ p) :
    (fs.removePath p).content q = fs.content q := by
  unfold Fs.content
  rw [Fs.ino_removePath_other fs h]
  cases fs.ino q <;> rfl

@[simp]
theorem Fs.ino_mkdirAll (fs : Fs) (p q : Path) :
    (fs.mkdirAll p).ino q = fs.ino q := rfl

@[simp]
theorem Fs.content_mkdirAll (fs : Fs) (p q : Path) :
    (fs.mkdirAll p).content q = fs.content q := rfl

theorem Fs.content_some (fs : Fs) (p : Path) (b : Bytes)
    (h : fs.content p = some b) :
    ∃ i, fs.ino p = some i ∧ alookup fs.inodes i = some b := by
  unfold Fs.content at h
  cases hino : fs.ino p with
  | none => rw [hino] at h; cases h
  | some i => rw [hino] at h; exact ⟨i, rfl, h⟩

/- ### The dedupe index -/

/-- The store root and a path below it, relative to the root.  The store root
is represented as a single path segment. -/
def relToRoot (root : String) (p : Path) : Path :=
  match p with
  | r :: rest => if r = root then rest else p
  | [] => p

/-- Modelled from the spec: the dedupe index (`cache.go` of the storage
package is not among the provided sources).  Spec 4.4: a persistent map from
canonical digest strings to root-relative paths; `get` returns the record or
not-present; `put` has overwrite semantics; `delete(digest, expected-path)` is
ignored when the stored path differs from the expected one.  Spec 4.3 step 1:
the inserted value is the root-relative final path. -/
structure Cache where
  entries : List (String × Path)
deriving DecidableEq, Repr

/-- Modelled from the spec: `get(digest)` → path or not-present. -/
def Cache.GetBlob (c : Cache) (d : String) : Option Path := alookup c.entries d

/-- Modelled from the spec: `put(digest, relpath)`, overwrite semantics; the
stored value is the path made relative to the store root. -/
def Cache.PutBlob (c : Cache) (root d : String) (p : Path) : Cache :=
  { entries := aset c.entries d (relToRoot root p) }

/-- Modelled from the spec: conditional `delete(digest, expected-relpath)`:
ignored if the stored path differs from the expected one. -/
def Cache.DeleteBlob (c : Cache) (root d : String) (p : Path) : Cache :=
  match alookup c.entries d with
  | none => c
  | some r => if r = relToRoot root p then { entries := aremove c.entries d } else c

@[simp]
theorem relToRoot_cons_self (root : String) (rest : Path) :
    relToRoot root (root :: rest) = rest := by
  simp [relToRoot]

@[simp]
theorem Cache.GetBlob_PutBlob_self (c : Cache) (root d : String) (p : Path) :
    (c.PutBlob root d p).GetBlob d = some (relToRoot root p) := by
  simp [Cache.PutBlob, Cache.GetBlob]

/- ### The image store -/

/-- The `ImageStore` of the source, restricted to the fields its operations
read: the root directory (one path segment), the dedupe flag (the source's
`cache != nil` is equivalent to it by construction), the dedupe index and the
filesystem.  The lock, logger and the never-read `blobUploads` map are not
modelled. -/
structure ImageStore where
  rootDir : String
  dedupe : Bool
  cache : Cache
  fs : Fs
deriving DecidableEq, Repr

/-- `BlobUploadPath`: `path.Join(rootDir, repo, ".uploads", uuid)`. -/
def ImageStore.BlobUploadPath (is : ImageStore) (repo uuid : String) : Path :=
  [is.rootDir, repo, ".uploads", uuid]

/-- `BlobPath`: `path.Join(rootDir, repo, "blobs", alg, hex)`. -/
def ImageStore.BlobPath (is : ImageStore) (repo : String) (d : DigestV) : Path :=
  [is.rootDir, repo, "blobs", d.alg, d.enc]

/-- The byte content written to `oci-layout` by `InitRepo`. -/
def ociLayoutStr : String := "\x7b\"imageLayoutVersion\":\"1.0.0\"\x7d"

/-- The byte content written to a fresh `index.json` by `InitRepo`
(`json.Marshal` of an index with schema version 2 and no manifests). -/
def emptyIndexStr : String := "\x7b\"schemaVersion\":2,\"manifests\":null\x7d"

def strBytes (s : String) : Bytes := s.toList.map Char.toNat

/-- `InitRepo`: idempotent; if the repository directory exists, do nothing;
otherwise create the `blobs` and `.uploads` directories and write `oci-layout`
and `index.json` when missing.  Directory creation and file writes cannot
fail in the model, so the error result is elided. -/
def ImageStore.InitRepo (is : ImageStore) (repo : String) : ImageStore :=
  let repoDir : Path := [is.rootDir, repo]
  if is.fs.isDir repoDir then is
  else
    let fs := (is.fs.mkdirAll (repoDir ++ ["blobs"])).mkdirAll (repoDir ++ [".uploads"])
    let fs := if fs.fileExists (repoDir ++ ["oci-layout"]) then fs
              else fs.createFile (repoDir ++ ["oci-layout"]) (strBytes ociLayoutStr)
    let fs := if fs.fileExists (repoDir ++ ["index.json"]) then fs
              else fs.createFile (repoDir ++ ["index.json"]) (strBytes emptyIndexStr)
    { is with fs := fs }

/-- `NewBlobUpload`: ensure the repository, then create the empty scratch
file.  The version-4 UUID and the success of the `os.OpenFile` call are
environment inputs, passed as the parameters `uuid` and `createOk`; on a
failing open the source returns `ErrRepoNotFound`. -/
def ImageStore.NewBlobUpload (is : ImageStore) (repo uuid : String)
    (createOk : Bool) : (String × Option ZotErr) × ImageStore :=
  let is := is.InitRepo repo
  if createOk then
    let fs := is.fs.createFile (is.BlobUploadPath repo uuid) []
    ((uuid, none), { is with fs := fs })
  else (("", some .repoNotFound), is)

/-- `PutBlobChunk`: ensure the repository; stat the scratch file
(`ErrUploadNotFound` when absent); require `from` to equal the current size
(`ErrBadUploadRange` otherwise); then write the body at offset `from`.  The
`to` offset is accepted and ignored, as in the source. -/
def ImageStore.PutBlobChunk (is : ImageStore) (repo uuid : String)
    (fromOff toOff : Int) (body : Bytes) : (Int × Option ZotErr) × ImageStore :=
  let is := is.InitRepo repo
  let p := is.BlobUploadPath repo uuid
  match is.fs.content p with
  | none => ((-1, some .uploadNotFound), is)
  | some old =>
    if fromOff ≠ (old.length : Int) then ((-1, some .badUploadRange), is)
    else
      let fs := is.fs.writeAt p fromOff.toNat body
      (((body.length : Int), none), { is with fs := fs })

/-- `DedupeBlob`'s `goto retry` loop, with explicit fuel.  One retry happens
only after the stale record for the digest has been purged, after which the
lookup misses, so two iterations always suffice; the fuel-exhausted arm is
unreachable from `DedupeBlob`. -/
def dedupeBlobLoop (src : Path) (dstDigest : DigestV) (dst : Path) :
    Nat → ImageStore → Option ZotErr × ImageStore
  | 0, is => (some .ioError, is)
  | Nat.succ fuel, is =>
    match is.cache.GetBlob (digStr dstDigest) with
    | none =>
      -- miss: insert the record, then move the scratch file into place
      let c := is.cache.PutBlob is.rootDir (digStr dstDigest) dst
      match is.fs.rename src dst with
      | none => (some .ioError, { is with cache := c })
      | some fs => (none, { is with cache := c, fs := fs })
    | some rec0 =>
      let dstRecord := is.rootDir :: rec0
      match is.fs.ino dstRecord with
      | none =>
        -- canonical copy vanished (GC on another path): purge and retry
        let c := is.cache.DeleteBlob is.rootDir (digStr dstDigest) dstRecord
        dedupeBlobLoop src dstDigest dst fuel { is with cache := c }
      | some recIno =>
        let dstIno := is.fs.ino dst
        if (match dstIno with
            | some j => decide (j = recIno)
            | none => false) then
          -- os.SameFile: destination already links the canonical copy
          match is.fs.remove src with
          | none => (some .ioError, is)
          | some fs => (none, { is with fs := fs })
        else
          match is.fs.link dstRecord dst with
          | none => (some .ioError, is)
          | some fs =>
            match fs.remove src with
            | none => (some .ioError, { is with fs := fs })
            | some fs2 => (none, { is with fs := fs2 })

/-- `DedupeBlob`: the placement primitive for the dedupe-enabled path. -/
def ImageStore.DedupeBlob (is : ImageStore) (src : Path) (dstDigest : DigestV)
    (dst : Path) : Option ZotErr × ImageStore :=
  dedupeBlobLoop src dstDigest dst 2 is

/-- `FinishBlobUpload`: parse the expected digest (`ErrBadBlobDigest`), stat
and open the scratch file (`ErrUploadNotFound`), rehash the complete file and
compare with the expected digest (`ErrBadBlobDigest`), then place the blob:
`DedupeBlob` when dedupe is on, else `os.Rename`.  The SHA-256 digester
(`godigest.FromReader`) is the parameter `hash`, applied to the full file
content; the unused body reader is omitted. -/
def ImageStore.FinishBlobUpload (hash : Bytes → DigestV) (is : ImageStore)
    (repo uuid digest : String) : Option ZotErr × ImageStore :=
  match parseDigest digest with
  | none => (some .badBlobDigest, is)
  | some dstDigest =>
    let src := is.BlobUploadPath repo uuid
    match is.fs.content src with
    | none => (some .uploadNotFound, is)
    | some data =>
      let srcDigest := hash data
      if srcDigest ≠ dstDigest then (some .badBlobDigest, is)
      else
        let is := { is with fs := is.fs.mkdirAll [is.rootDir, repo, "blobs", dstDigest.alg] }
        let dst := is.BlobPath repo dstDigest
        if is.dedupe then is.DedupeBlob src dstDigest dst
        else
          match is.fs.rename src dst with
          | none => (some .ioError, is)
          | some fs => (none, { is with fs := fs })

/-- `DeleteBlobUpload`: `os.Remove` of the scratch file; the source returns
the raw remove error when it fails. -/
def ImageStore.DeleteBlobUpload (is : ImageStore) (repo uuid : String) :
    Option ZotErr × ImageStore :=
  match is.fs.remove (is.BlobUploadPath repo uuid) with
  | none => (some .ioError, is)
  | some fs => (none, { is with fs := fs })

/-- `GetBlob`: parse the digest (`ErrBadBlobDigest`), stat the blob path
(`ErrBlobNotFound`), open it and return the stream and the stat size.  The
unused mediaType parameter is omitted. -/
def ImageStore.GetBlob (is : ImageStore) (repo digest : String) :
    Except ZotErr (Bytes × Int) :=
  match parseDigest digest with
  | none => .error .badBlobDigest
  | some d =>
    match is.fs.content (is.BlobPath repo d) with
    | none => .error .blobNotFound
    | some b => .ok (b, (b.length : Int))

/- ### Manifests and index.json

The manifest maintainer is embedded over a structured single-repository view:
`index.json` is held as the decoded `ispec.Index` value (`json.Marshal` /
`json.Unmarshal` round the same value), and the `blobs/<alg>/<hex>` tree is a
map keyed by the canonical digest string, which determines the path.  The
JSON decoding of manifest bodies (`json.Unmarshal` into `ispec.Manifest`) and
the SHA-256 digester (`godigest.FromBytes`) are external libraries and enter
as parameters, as does the GC invocation, which lives in the external umoci
dependency (`oci.GC`). -/

def refNameKey : String := "org.opencontainers.image.ref.name"

def ociManifestMediaType : String := "application/vnd.oci.image.manifest.v1+json"

structure Platform where
  architecture : String
  os : String
deriving DecidableEq, Repr

/-- `ispec.Descriptor`: the fields the source reads or writes.  `annots` is
the `Annotations` map (`none` models Go's nil map). -/
structure Descriptor where
  mediaType : String
  size : Int
  digest : String
  platform : Option Platform
  annots : Option (List (String × String))
deriving DecidableEq, Repr

/-- `m.Annotations[k]` with the comma-ok idiom on a possibly-nil map. -/
def annGet (a : Option (List (String × String))) (k : String) : Option String :=
  match a with
  | none => none
  | some l => alookup l k

/-- `ispec.Index`: schema version and the ordered manifest descriptors. -/
structure OciIndex where
  schemaVersion : Nat
  manifests : List Descriptor
deriving DecidableEq, Repr

/-- `ispec.Manifest`: the fields `PutImageManifest` reads. -/
structure ManifestDoc where
  schemaVersion : Nat
  layers : List Descriptor
deriving DecidableEq, Repr

/-- The single-repository store view for the manifest maintainer. -/
structure RepoFs where
  repoDirExists : Bool
  gcEnabled : Bool
  index : OciIndex
  blobFiles : List (String × Bytes)
deriving DecidableEq, Repr

/-- `InitRepo` on the structured view: a present repository is left as is; a
missing one is created with the empty index and an empty blobs tree. -/
def initRepoB (st : RepoFs) : RepoFs :=
  if st.repoDirExists then st
  else { repoDirExists := true, gcEnabled := st.gcEnabled,
         index := { schemaVersion := 2, manifests := [] }, blobFiles := [] }

/-- The source's layer loop: `os.Stat` each layer's blob path in order and
report the first missing digest. -/
def firstMissingLayer (blobs : List (String × Bytes)) : List Descriptor → Option String
  | [] => none
  | l :: rest =>
    match alookup blobs l.digest with
    | none => some l.digest
    | some _ => firstMissingLayer blobs rest

/-- The source's descriptor loop in `PutImageManifest`: walk the manifest
sequence; on a digest match keep everything and do not update; on a tag match
with equal digest likewise; on a tag match with a different digest return the
old descriptor updated with the new size and digest, with the matched element
removed from the sequence; otherwise fall through to the default descriptor
with the sequence unchanged.  Returns (descriptor, updateIndex, sequence). -/
def scanManifests (reference mDigestStr : String) (bodyLen : Int)
    (desc0 : Descriptor) : List Descriptor → Descriptor × Bool × List Descriptor
  | [] => (desc0, true, [])
  | m :: rest =>
    if reference = m.digest then (m, false, m :: rest)
    else
      match annGet m.annots refNameKey with
      | some v =>
        if v = reference then
          if m.digest = mDigestStr then (m, false, m :: rest)
          else ({ m with size := bodyLen, digest := mDigestStr }, true, rest)
        else
          let r := scanManifests reference mDigestStr bodyLen desc0 rest
          (r.1, r.2.1, m :: r.2.2)
      | none =>
        let r := scanManifests reference mDigestStr bodyLen desc0 rest
        (r.1, r.2.1, m :: r.2.2)

/-- The tail of `PutImageManifest` after all validations: build the default
descriptor, scan the sequence, stop without writing when nothing changed,
otherwise write the manifest blob, append the descriptor and rewrite
`index.json`, then invoke GC when enabled (`gcHook`, the external
`umoci.OpenLayout` + `oci.GC` call; its error is returned with an empty
digest, as in the source). -/
def putManifestTail (gcHook : RepoFs → Option ZotErr × RepoFs) (st : RepoFs)
    (reference mediaType : String) (body : Bytes) (mDigest : DigestV)
    (refIsDigest : Bool) : (String × Option ZotErr) × RepoFs :=
  let desc0 : Descriptor :=
    { mediaType := mediaType, size := (body.length : Int), digest := digStr mDigest,
      platform := some { architecture := "amd64", os := "linux" },
      annots := if refIsDigest then none else some [(refNameKey, reference)] }
  let scan := scanManifests reference (digStr mDigest) (body.length : Int) desc0
                st.index.manifests
  if scan.2.1 = false then ((scan.1.digest, none), st)
  else
    let st1 := { st with blobFiles := aset st.blobFiles (digStr mDigest) body }
    let st2 := { st1 with index := { st1.index with manifests := scan.2.2 ++ [scan.1] } }
    if st2.gcEnabled then
      match gcHook st2 with
      | (some e, st3) => (("", some e), st3)
      | (none, st3) => ((scan.1.digest, none), st3)
    else ((scan.1.digest, none), st2)

/-- `PutImageManifest`: ensure the repository; require the OCI manifest media
type, a nonempty body that unmarshals (`parseManifest`) with schema version 2
(`ErrBadManifest` otherwise); require every layer digest to exist as a blob
(`ErrBlobNotFound` with the offending digest); when the reference parses as a
digest require it to equal the body's digest (`ErrBadManifest`); then update
the index as in `putManifestTail`. -/
def PutImageManifest (hash : Bytes → DigestV)
    (parseManifest : Bytes → Option ManifestDoc)
    (gcHook : RepoFs → Option ZotErr × RepoFs) (st0 : RepoFs)
    (reference mediaType : String) (body : Bytes) :
    (String × Option ZotErr) × RepoFs :=
  let st := initRepoB st0
  if ¬ (mediaType = ociManifestMediaType) then (("", some .badManifest), st)
  else if body.length = 0 then (("", some .badManifest), st)
  else
    match parseManifest body with
    | none => (("", some .badManifest), st)
    | some m =>
      if ¬ (m.schemaVersion = 2) then (("", some .badManifest), st)
      else
        match firstMissingLayer st.blobFiles m.layers with
        | some d => ((d, some .blobNotFound), st)
        | none =>
          let mDigest := hash body
          match parseDigest reference with
          | some d =>
            if ¬ (digStr d = digStr mDigest) then (("", some .badManifest), st)
            else putManifestTail gcHook st reference mediaType body mDigest true
          | none => putManifestTail gcHook st reference mediaType body mDigest false

/-- `DeleteImageManifest`: require the repository directory; the reference
must parse as a digest (`ErrBadManifest`); keep only the non-matching
descriptors and fail with `ErrManifestNotFound` when nothing matched; rewrite
`index.json`; invoke GC when enabled; finally `_ = os.Remove(blob)` — the
unlink of the manifest blob with the error discarded. -/
def DeleteImageManifest (gcHook : RepoFs → Option ZotErr × RepoFs)
    (st : RepoFs) (reference : String) : Option ZotErr × RepoFs :=
  if ¬ st.repoDirExists then (some .repoNotFound, st)
  else
    match parseDigest reference with
    | none => (some .badManifest, st)
    | some dg =>
      let found := st.index.manifests.any (fun m => decide (reference = m.digest))
      let outManifests := st.index.manifests.filter
        (fun m => decide (¬ reference = m.digest))
      if ¬ (found = true) then (some .manifestNotFound, st)
      else
        let st1 := { st with index := { st.index with manifests := outManifests } }
        let step := if st1.gcEnabled then gcHook st1 else (none, st1)
        match step with
        | (some e, st2) => (some e, st2)
        | (none, st2) =>
          (none, { st2 with blobFiles := aremove st2.blobFiles (digStr dg) })

/- ### Garbage collection -/

/-- `gcDelay = 1 * time.Hour`, in nanoseconds (`time.Duration`). -/
def gcDelayNs : Int := 3600000000000

/-- A repository's blobs as seen by the GC walker: digest (string) and the
file's modification time in nanoseconds. -/
structure GcRepo where
  blobs : List (String × Int)
deriving DecidableEq, Repr

/-- The source's `ifOlderThan` GC policy: stat the blob (`none` models the
policy returning an error); keep (`some false`) while
`fi.ModTime().Add(delay).After(time.Now())`, i.e. while `mtime + delay > now`;
otherwise allow deletion (`some true`). -/
def ifOlderThan (st : GcRepo) (delay now : Int) (digest : String) : Option Bool :=
  match alookup st.blobs digest with
  | none => none
  | some mtime => if mtime + delay > now then some false else some true

/-- Modelled from the spec: the GC walker itself lives in the external umoci
dependency (`oci.GC`), not in the sources; per the spec it "enumerates blobs
in the repository and removes those not reachable from any manifest in
index.json", consulting the supplied policy for each candidate.  Reachability
is the parameter `reachable`; the policy is the source's `ifOlderThan` with
the source's one-hour `gcDelay`. -/
def runGC (reachable : String → Bool) (now : Int) (st : GcRepo) : GcRepo :=
  { blobs := st.blobs.filter (fun e =>
      reachable e.1 || !(decide (ifOlderThan st gcDelayNs now e.1 = some true))) }

/- ### Concrete stores and helpers used by witnesses and counterexamples -/

def encA : String := "aaaaaaaaaaaaaaaaaaaaaaaaaaaaaaaaaaaaaaaaaaaaaaaaaaaaaaaaaaaaaaaa"

def encB : String := "bbbbbbbbbbbbbbbbbbbbbbbbbbbbbbbbbbbbbbbbbbbbbbbbbbbbbbbbbbbbbbbb"

def encC : String := "cccccccccccccccccccccccccccccccccccccccccccccccccccccccccccccccc"

def dgA : DigestV := ⟨"sha256", encA⟩

def dgB : DigestV := ⟨"sha256", encB⟩

def dgC : DigestV := ⟨"sha256", encC⟩

def dstrA : String := "sha256:" ++ encA

def dstrB : String := "sha256:" ++ encB

/-- A digester that assigns every content the digest `dgA` (digesters are
parameters of the embedded operations; witnesses fix one). -/
def hashConstA : Bytes → DigestV := fun _ => dgA

def fsEmpty : Fs := { paths := [], inodes := [], dirs := [], nextIno := 0 }

/-- An empty store (no repository, no scratch files). -/
def stEmpty : ImageStore :=
  { rootDir := "zot", dedupe := false, cache := { entries := [] }, fs := fsEmpty }

/-- A store with repository `repo` initialized and one scratch file
`.uploads/u1` holding three bytes. -/
def stScratch : ImageStore :=
  { rootDir := "zot", dedupe := false, cache := { entries := [] },
    fs := { paths := [(["zot", "repo", ".uploads", "u1"], 1)],
            inodes := [(1, [104, 105, 33])],
            dirs := [["zot", "repo"], ["zot", "repo", "blobs"], ["zot", "repo", ".uploads"]],
            nextIno := 2 } }

/- ### Claims -/

/-- C10: when `NewBlobUpload` has initialized the repository but the creation
of the empty scratch file fails, the operation reports `RepoNotFound` — the
error kind of a missing repository, not a storage I/O kind. -/
theorem c10_new_upload_create_failure_repo_not_found (is : ImageStore)
    (repo uuid : String) :
    (is.NewBlobUpload repo uuid false).1 = ("", some ZotErr.repoNotFound) ∧
    some ZotErr.repoNotFound ≠ some ZotErr.ioError := by
  constructor
  · rfl
  · decide

/-- C8 counterexample: cancelling an upload whose scratch file does not exist
surfaces a failure (the raw remove error), distinct from success — contrary
to the claim that a missing scratch file is not an error the caller needs to
distinguish. -/
theorem c8_cancel_missing_cex :
    (stEmpty.DeleteBlobUpload "repo" "u1").1 = some ZotErr.ioError ∧
    some ZotErr.ioError ≠ (none : Option ZotErr) := by
  constructor
  · rfl
  · decide

/-- C8 (amended): `DeleteBlobUpload` unlinks the scratch file and succeeds
when it exists; when the scratch file is missing, the failing remove's error
is returned to the caller. -/
theorem c8_cancel_unlink_or_error (is : ImageStore) (repo uuid : String) :
    (is.fs.fileExists (is.BlobUploadPath repo uuid) = true →
      is.DeleteBlobUpload repo uuid =
        (none, { is with fs := is.fs.removePath (is.BlobUploadPath repo uuid) })) ∧
    (is.fs.fileExists (is.BlobUploadPath repo uuid) = false →
      is.DeleteBlobUpload repo uuid = (some ZotErr.ioError, is)) := by
  constructor <;> intro h <;> simp [ImageStore.DeleteBlobUpload, Fs.remove, h]

/-- Witness for C8 (amended), at a store holding the scratch file and at one
without it. -/
theorem c8_cancel_unlink_or_error_wit :
    stScratch.DeleteBlobUpload "repo" "u1" =
      (none, { stScratch with
                 fs := stScratch.fs.removePath (stScratch.BlobUploadPath "repo" "u1") }) ∧
    stEmpty.DeleteBlobUpload "repo" "u1" = (some ZotErr.ioError, stEmpty) :=
  ⟨(c8_cancel_unlink_or_error stScratch "repo" "u1").1 (by decide),
   (c8_cancel_unlink_or_error stEmpty "repo" "u1").2 (by decide)⟩

/-- C6: on an existing upload, `PutBlobChunk` fails with `BadUploadRange`
exactly when the supplied `from` offset differs from the current scratch-file
size, and on that failure the store — in particular the scratch file — is
unchanged. -/
theorem c6_chunk_range_check (is : ImageStore) (repo uuid : String) (c : Bytes)
    (fromOff toOff : Int) (body : Bytes)
    (hinit : is.InitRepo repo = is)
    (hscratch : is.fs.content (is.BlobUploadPath repo uuid) = some c) :
    ((is.PutBlobChunk repo uuid fromOff toOff body).1.2 = some ZotErr.badUploadRange
      ↔ fromOff ≠ (c.length : Int)) ∧
    (fromOff ≠ (c.length : Int) →
      (is.PutBlobChunk repo uuid fromOff toOff body).2 = is) := by
  by_cases hf : fromOff = (c.length : Int) <;>
    simp [ImageStore.PutBlobChunk, hinit, hscratch, hf]

/-- Witness for C6: a three-byte scratch file; `from = 5` is rejected with
`BadUploadRange` and writes nothing, `from = 3` is not rejected. -/
theorem c6_chunk_range_check_wit :
    ((stScratch.PutBlobChunk "repo" "u1" 5 8 [100]).1.2 = some ZotErr.badUploadRange
      ↔ (5 : Int) ≠ (([104, 105, 33] : Bytes).length : Int)) ∧
    ((5 : Int) ≠ (([104, 105, 33] : Bytes).length : Int) →
      (stScratch.PutBlobChunk "repo" "u1" 5 8 [100]).2 = stScratch) :=
  c6_chunk_range_check stScratch "repo" "u1" [104, 105, 33] 5 8 [100]
    (by decide) (by decide)

/-- C1: `FinishBlobUpload` rehashes the complete scratch file; when the
computed digest differs from the expected digest it fails with
`BadBlobDigest` and the store is unchanged — the scratch file stays, no blob
appears at the content-addressed path, and `GetBlob` for that digest still
reports `BlobNotFound`. -/
theorem c1_finalize_digest_mismatch (hash : Bytes → DigestV) (is : ImageStore)
    (repo uuid digest : String) (dg : DigestV) (b : Bytes)
    (hp : parseDigest digest = some dg)
    (hs : is.fs.content (is.BlobUploadPath repo uuid) = some b)
    (hne : hash b ≠ dg)
    (habsent : is.fs.ino (is.BlobPath repo dg) = none) :
    ImageStore.FinishBlobUpload hash is repo uuid digest
      = (some ZotErr.badBlobDigest, is) ∧
    (ImageStore.FinishBlobUpload hash is repo uuid digest).2.GetBlob repo digest
      = Except.error ZotErr.blobNotFound := by
  have h1 : ImageStore.FinishBlobUpload hash is repo uuid digest
      = (some ZotErr.badBlobDigest, is) := by
    simp [ImageStore.FinishBlobUpload, hp, hs, hne]
  refine ⟨h1, ?_⟩
  rw [h1]
  have h2 : is.fs.content (is.BlobPath repo dg) = none := by
    unfold Fs.content
    rw [habsent]
  simp [ImageStore.GetBlob, hp, h2]

/-- Witness for C1: the scratch content hashes to `dgA` but `sha256:bbb…b`
was expected. -/
theorem c1_finalize_digest_mismatch_wit :
    ImageStore.FinishBlobUpload hashConstA stScratch "repo" "u1" dstrB
      = (some ZotErr.badBlobDigest, stScratch) ∧
    (ImageStore.FinishBlobUpload hashConstA stScratch "repo" "u1" dstrB).2.GetBlob
        "repo" dstrB = Except.error ZotErr.blobNotFound :=
  c1_finalize_digest_mismatch hashConstA stScratch "repo" "u1" dstrB dgB
    [104, 105, 33] (by decide) (by decide) (by decide) (by decide)

/-- A GC invocation that does nothing and succeeds (witnesses fix the
`gcHook` parameter with it; with GC disabled it is never consulted). -/
def gcHookId : RepoFs → Option ZotErr × RepoFs := fun st => (none, st)

/-- A layer descriptor referring to the digest `dgA`. -/
def layerA : Descriptor :=
  { mediaType := "application/vnd.oci.image.layer.v1.tar+gzip", size := 3,
    digest := dstrA, platform := none, annots := none }

/-- A manifest-body decoder that yields a schema-2 manifest with `layerA` as
its single layer. -/
def parseManifestW : Bytes → Option ManifestDoc :=
  fun _ => some { schemaVersion := 2, layers := [layerA] }

/-- An initialized repository with an empty index and no blobs. -/
def stRepoEmpty : RepoFs :=
  { repoDirExists := true, gcEnabled := false,
    index := { schemaVersion := 2, manifests := [] }, blobFiles := [] }

/-- C5: `PutImageManifest` with a body whose layers reference a digest that
is not present as a blob fails with `BlobNotFound` carrying the offending
digest, and the store — `index.json` and the blobs tree — is unchanged. -/
theorem c5_put_manifest_missing_layer (hash : Bytes → DigestV)
    (parseManifest : Bytes → Option ManifestDoc)
    (gcHook : RepoFs → Option ZotErr × RepoFs) (st : RepoFs)
    (reference : String) (body : Bytes) (m : ManifestDoc) (d0 : String)
    (hrepo : st.repoDirExists = true)
    (hbody : body.length ≠ 0)
    (hm : parseManifest body = some m)
    (hsv : m.schemaVersion = 2)
    (hmiss : firstMissingLayer st.blobFiles m.layers = some d0) :
    PutImageManifest hash parseManifest gcHook st reference
        ociManifestMediaType body
      = ((d0, some ZotErr.blobNotFound), st) := by
  have hi : initRepoB st = st := by simp [initRepoB, hrepo]
  simp [PutImageManifest, hi, hbody, hm, hsv, hmiss]

/-- Witness for C5: the single layer's digest `sha256:aaa…a` was never
uploaded; the put fails with `BlobNotFound` naming it and changes nothing. -/
theorem c5_put_manifest_missing_layer_wit :
    PutImageManifest hashConstA parseManifestW gcHookId stRepoEmpty "latest"
        ociManifestMediaType [1, 2, 3]
      = ((dstrA, some ZotErr.blobNotFound), stRepoEmpty) :=
  c5_put_manifest_missing_layer hashConstA parseManifestW gcHookId stRepoEmpty
    "latest" [1, 2, 3] { schemaVersion := 2, layers := [layerA] } dstrA
    (by decide) (by decide) (by decide) (by decide) (by decide)

/-- C9: with the repository present, `DeleteImageManifest` on a digest
reference that matches a descriptor succeeds and removes every matching
descriptor from the index, with no condition on the manifest blob file being
present — the final unlink's failure is discarded.  (Stated with GC disabled;
the GC invocation is the external umoci call.) -/
theorem c9_delete_manifest_ignores_unlink (gcHook : RepoFs → Option ZotErr × RepoFs)
    (st : RepoFs) (reference : String) (dg : DigestV)
    (hrepo : st.repoDirExists = true)
    (hgc : st.gcEnabled = false)
    (hp : parseDigest reference = some dg)
    (hfound : st.index.manifests.any (fun m => decide (reference = m.digest)) = true) :
    (DeleteImageManifest gcHook st reference).1 = none ∧
    (DeleteImageManifest gcHook st reference).2.index.manifests
      = st.index.manifests.filter (fun m => decide (¬ reference = m.digest)) := by
  simp [DeleteImageManifest, hrepo, hp, hfound, hgc]

/-- Witness for C9: the index holds a descriptor for `sha256:aaa…a` but the
blobs tree does not hold that manifest blob; the delete still succeeds. -/
theorem c9_delete_manifest_ignores_unlink_wit :
    (DeleteImageManifest gcHookId
        { repoDirExists := true, gcEnabled := false,
          index := { schemaVersion := 2,
                     manifests := [{ mediaType := ociManifestMediaType, size := 3,
                                     digest := dstrA, platform := none,
                                     annots := none }] },
          blobFiles := [] } dstrA).1 = none ∧
    (DeleteImageManifest gcHookId
        { repoDirExists := true, gcEnabled := false,
          index := { schemaVersion := 2,
                     manifests := [{ mediaType := ociManifestMediaType, size := 3,
                                     digest := dstrA, platform := none,
                                     annots := none }] },
          blobFiles := [] } dstrA).2.index.manifests
      = List.filter (fun m => decide (¬ dstrA = m.digest))
          [{ mediaType := ociManifestMediaType, size := 3, digest := dstrA,
             platform := none, annots := none }] :=
  c9_delete_manifest_ignores_unlink gcHookId
    { repoDirExists := true, gcEnabled := false,
      index := { schemaVersion := 2,
                 manifests := [{ mediaType := ociManifestMediaType, size := 3,
                                 digest := dstrA, platform := none,
                                 annots := none }] },
      blobFiles := [] } dstrA dgA (by decide) (by decide) (by decide) (by decide)

/- ### C3: tag update and descriptor position -/

theorem scanManifests_skip (reference mds : String) (bl : Int) (d0 : Descriptor)
    (pre rest : List Descriptor)
    (hpre : ∀ d ∈ pre, reference ≠ d.digest ∧ annGet d.annots refNameKey ≠ some reference) :
    scanManifests reference mds bl d0 (pre ++ rest)
      = ((scanManifests reference mds bl d0 rest).1,
         (scanManifests reference mds bl d0 rest).2.1,
         pre ++ (scanManifests reference mds bl d0 rest).2.2) := by
  induction pre with
  | nil => simp
  | cons m pre ih =>
    obtain ⟨h1, h2⟩ := hpre m (List.mem_cons_self m pre)
    have hrest : ∀ d ∈ pre, reference ≠ d.digest ∧ annGet d.annots refNameKey ≠ some reference :=
      fun d hd => hpre d (List.mem_cons_of_mem m hd)
    cases hann : annGet m.annots refNameKey with
    | none => simp [scanManifests, h1, hann, ih hrest]
    | some v =>
      have hv : ¬ (v = reference) := by
        intro he
        exact h2 (by rw [hann, he])
      simp [scanManifests, h1, hann, hv, ih hrest]

/-- The descriptor produced by the tag-update branch: the old descriptor with
the new body's size and digest. -/
def updatedDesc (old : Descriptor) (body : Bytes) (mds : String) : Descriptor :=
  { old with size := (body.length : Int), digest := mds }

/-- C3 (amended): when a tag reference already annotates a descriptor and the
new body's digest differs, `PutImageManifest` removes the old descriptor from
its position and appends the updated descriptor (old fields, new size and
digest) at the end of the manifests sequence. -/
theorem c3_tag_update_appends (hash : Bytes → DigestV)
    (parseManifest : Bytes → Option ManifestDoc)
    (gcHook : RepoFs → Option ZotErr × RepoFs) (st : RepoFs)
    (reference : String) (body : Bytes) (m : ManifestDoc)
    (pre post : List Descriptor) (old : Descriptor)
    (hrepo : st.repoDirExists = true)
    (hgc : st.gcEnabled = false)
    (hbody : body.length ≠ 0)
    (hm : parseManifest body = some m)
    (hsv : m.schemaVersion = 2)
    (hlayers : firstMissingLayer st.blobFiles m.layers = none)
    (href : parseDigest reference = none)
    (hidx : st.index.manifests = pre ++ old :: post)
    (hpre : ∀ d ∈ pre, reference ≠ d.digest ∧ annGet d.annots refNameKey ≠ some reference)
    (hold1 : reference ≠ old.digest)
    (hold2 : annGet old.annots refNameKey = some reference)
    (hold3 : old.digest ≠ digStr (hash body)) :
    (PutImageManifest hash parseManifest gcHook st reference
        ociManifestMediaType body).1
      = (digStr (hash body), none) ∧
    (PutImageManifest hash parseManifest gcHook st reference
        ociManifestMediaType body).2.index.manifests
      = pre ++ post ++ [updatedDesc old body (digStr (hash body))] := by
  have hi : initRepoB st = st := by simp [initRepoB, hrepo]
  have hscan : scanManifests reference (digStr (hash body)) (body.length : Int)
        ((fun d0 => d0) { mediaType := ociManifestMediaType,
                          size := (body.length : Int), digest := digStr (hash body),
                          platform := some { architecture := "amd64", os := "linux" },
                          annots := some [(refNameKey, reference)] })
        (pre ++ old :: post)
      = (updatedDesc old body (digStr (hash body)), true, pre ++ post) := by
    rw [scanManifests_skip _ _ _ _ _ _ hpre]
    simp [scanManifests, hold1, hold2, hold3, updatedDesc]
  simp only [PutImageManifest, hi, hbody, hm, hsv, hlayers, href, putManifestTail]
  simp only [hidx] at hscan ⊢
  simp [hscan, hbody, hm, hsv, hgc, hrepo, updatedDesc]

/-- A manifest-body decoder yielding a schema-2 manifest with no layers. -/
def parseManifestNoLayers : Bytes → Option ManifestDoc :=
  fun _ => some { schemaVersion := 2, layers := [] }

/-- A digester that assigns every content the digest `dgC`. -/
def hashConstC : Bytes → DigestV := fun _ => dgC

/-- The descriptor carrying the tag `latest`, at position 0 of the index. -/
def descTagged : Descriptor :=
  { mediaType := ociManifestMediaType, size := 10, digest := dstrA,
    platform := some { architecture := "amd64", os := "linux" },
    annots := some [(refNameKey, "latest")] }

/-- An untagged descriptor, at position 1 of the index. -/
def descOther : Descriptor :=
  { mediaType := ociManifestMediaType, size := 20, digest := dstrB,
    platform := some { architecture := "amd64", os := "linux" },
    annots := none }

/-- A repository whose index holds `descTagged` then `descOther`. -/
def stTwoManifests : RepoFs :=
  { repoDirExists := true, gcEnabled := false,
    index := { schemaVersion := 2, manifests := [descTagged, descOther] },
    blobFiles := [] }

/-- C3 counterexample: the tag `latest` annotates the descriptor at position
0 of two; putting a new body under that tag leaves the untouched descriptor
at position 0 and the updated descriptor at position 1 — the updated
descriptor does not occupy the replaced descriptor's position. -/
theorem c3_tag_update_position_cex :
    (PutImageManifest hashConstC parseManifestNoLayers gcHookId stTwoManifests
        "latest" ociManifestMediaType [9]).2.index.manifests
      = [descOther, updatedDesc descTagged [9] (digStr dgC)] ∧
    descOther.digest ≠ (updatedDesc descTagged [9] (digStr dgC)).digest := by
  constructor
  · rfl
  · decide

/-- Witness for C3 (amended): a nonempty prefix before the tagged
descriptor; the update drops the old descriptor from position 1 and appends
the updated one at the end. -/
theorem c3_tag_update_appends_wit :
    (PutImageManifest hashConstC parseManifestNoLayers gcHookId
        { repoDirExists := true, gcEnabled := false,
          index := { schemaVersion := 2, manifests := [descOther, descTagged] },
          blobFiles := [] } "latest" ociManifestMediaType [9]).1
      = (digStr dgC, none) ∧
    (PutImageManifest hashConstC parseManifestNoLayers gcHookId
        { repoDirExists := true, gcEnabled := false,
          index := { schemaVersion := 2, manifests := [descOther, descTagged] },
          blobFiles := [] } "latest" ociManifestMediaType [9]).2.index.manifests
      = [descOther] ++ [] ++ [updatedDesc descTagged [9] (digStr dgC)] :=
  c3_tag_update_appends hashConstC parseManifestNoLayers gcHookId
    { repoDirExists := true, gcEnabled := false,
      index := { schemaVersion := 2, manifests := [descOther, descTagged] },
      blobFiles := [] } "latest" [9] { schemaVersion := 2, layers := [] }
    [descOther] [] descTagged (by decide) (by decide) (by decide) (by decide)
    (by decide) (by decide) (by decide) (by decide)
    (by
      intro d hd
      simp at hd
      subst hd
      exact ⟨by decide, by decide⟩)
    (by decide) (by decide) (by decide)

/- ### C7: GC grace delay -/

/-- C7 counterexample: a blob whose modification time is exactly one hour
before the current time — hence not strictly older than one hour before it —
is removed by GC when it is unreachable. -/
theorem c7_gc_boundary_cex :
    (runGC (fun _ => false) gcDelayNs { blobs := [(dstrA, 0)] }).blobs = [] ∧
    ¬ ((0 : Int) < gcDelayNs - gcDelayNs) := by
  constructor
  · rfl
  · decide

/-- C7 (amended): GC removes a blob only if it is not reachable from any
manifest of the index and its modification time is at least one hour before
the current time (`mtime + gcDelay ≤ now`); in particular a blob modified
strictly within the last hour is never deleted. -/
theorem c7_gc_grace (reachable : String → Bool) (now : Int) (st : GcRepo)
    (d : String) (mt : Int)
    (hmem : (d, mt) ∈ st.blobs)
    (hgone : (d, mt) ∉ (runGC reachable now st).blobs) :
    reachable d = false ∧
    ∃ mt2, alookup st.blobs d = some mt2 ∧ mt2 + gcDelayNs ≤ now := by
  have hp : (reachable d || !(decide (ifOlderThan st gcDelayNs now d = some true)))
      = false := by
    by_contra hcon
    have hpt : (reachable d || !(decide (ifOlderThan st gcDelayNs now d = some true)))
        = true := by
      revert hcon
      cases reachable d || !(decide (ifOlderThan st gcDelayNs now d = some true)) <;> simp
    refine hgone ?_
    unfold runGC
    exact List.mem_filter.mpr ⟨hmem, hpt⟩
  simp only [Bool.or_eq_false_iff, Bool.not_eq_false', decide_eq_true_eq] at hp
  obtain ⟨hreach, hold⟩ := hp
  refine ⟨hreach, ?_⟩
  unfold ifOlderThan at hold
  cases halk : alookup st.blobs d with
  | none => rw [halk] at hold; simp at hold
  | some mt2 =>
    rw [halk] at hold
    by_cases hlt : mt2 + gcDelayNs > now
    · simp [hlt] at hold
    · exact ⟨mt2, rfl, by omega⟩

/-- Witness for C7 (amended): a two-hour-old unreachable blob is collected,
and the theorem reports it unreachable and at least one hour old. -/
theorem c7_gc_grace_wit :
    (fun _ : String => false) dstrA = false ∧
    ∃ mt2, alookup ({ blobs := [(dstrA, 0)] } : GcRepo).blobs dstrA = some mt2 ∧
      mt2 + gcDelayNs ≤ 2 * gcDelayNs :=
  c7_gc_grace (fun _ => false) (2 * gcDelayNs) { blobs := [(dstrA, 0)] } dstrA 0
    (by decide) (by decide)

/- ### C2, C4: dedupe placement -/

theorem dedupeBlobLoop_miss (src : Path) (d : DigestV) (dst : Path) (fuel : Nat)
    (is : ImageStore) (hc : is.cache.GetBlob (digStr d) = none) :
    dedupeBlobLoop src d dst (Nat.succ fuel) is
      = (match is.fs.rename src dst with
         | none => (some ZotErr.ioError,
             { is with cache := is.cache.PutBlob is.rootDir (digStr d) dst })
         | some fs => (none,
             { is with cache := is.cache.PutBlob is.rootDir (digStr d) dst, fs := fs })) := by
  simp [dedupeBlobLoop, hc]

theorem dedupeBlobLoop_hit (src : Path) (d : DigestV) (dst : Path) (fuel : Nat)
    (is : ImageStore) (rec0 : Path) (recI : Nat)
    (hc : is.cache.GetBlob (digStr d) = some rec0)
    (hrec : is.fs.ino (is.rootDir :: rec0) = some recI) :
    dedupeBlobLoop src d dst (Nat.succ fuel) is
      = (if (match is.fs.ino dst with
             | some j => decide (j = recI)
             | none => false) then
           match is.fs.remove src with
           | none => (some ZotErr.ioError, is)
           | some fs => (none, { is with fs := fs })
         else
           match is.fs.link (is.rootDir :: rec0) dst with
           | none => (some ZotErr.ioError, is)
           | some fs =>
             match fs.remove src with
             | none => (some ZotErr.ioError, { is with fs := fs })
             | some fs2 => (none, { is with fs := fs2 })) := by
  simp [dedupeBlobLoop, hc, hrec]

/-- A successful finalize through the dedupe miss path: the record is
inserted and the scratch file renamed onto the blob path. -/
theorem finish_miss (hash : Bytes → DigestV) (is : ImageStore)
    (repo uuid digest : String) (dg : DigestV) (b : Bytes) (i : Nat)
    (hded : is.dedupe = true)
    (hp : parseDigest digest = some dg)
    (hh : hash b = dg)
    (hcontent : is.fs.content (is.BlobUploadPath repo uuid) = some b)
    (hino : is.fs.ino (is.BlobUploadPath repo uuid) = some i)
    (hc : is.cache.GetBlob (digStr dg) = none) :
    ImageStore.FinishBlobUpload hash is repo uuid digest
      = (none, { is with
          cache := is.cache.PutBlob is.rootDir (digStr dg) (is.BlobPath repo dg),
          fs := ((is.fs.mkdirAll [is.rootDir, repo, "blobs", dg.alg]).removePath
                   (is.BlobUploadPath repo uuid)).setPath (is.BlobPath repo dg) i }) := by
  have e2 : (2 : Nat) = Nat.succ 1 := rfl
  simp only [ImageStore.BlobUploadPath, ImageStore.BlobPath] at hcontent hino ⊢
  simp only [ImageStore.FinishBlobUpload, hp, hcontent, hh, ne_eq, not_true_eq_false,
    if_false, ite_false, ImageStore.DedupeBlob]
  rw [e2]
  rw [dedupeBlobLoop_miss _ _ _ _ _ (by simpa using hc)]
  simp [Fs.rename, hino, hded, hcontent, hh, ImageStore.BlobPath, ImageStore.BlobUploadPath]

/-- A successful finalize through the dedupe hit path with the destination
absent: the canonical copy is hard-linked onto the blob path and the scratch
file unlinked; the cache is unchanged. -/
theorem finish_hit_link (hash : Bytes → DigestV) (is : ImageStore)
    (repo uuid digest : String) (dg : DigestV) (b : Bytes) (rec0 : Path)
    (recI i2 : Nat)
    (hded : is.dedupe = true)
    (hp : parseDigest digest = some dg)
    (hh : hash b = dg)
    (hcontent : is.fs.content (is.BlobUploadPath repo uuid) = some b)
    (hsrcino : is.fs.ino (is.BlobUploadPath repo uuid) = some i2)
    (hc : is.cache.GetBlob (digStr dg) = some rec0)
    (hrec : is.fs.ino (is.rootDir :: rec0) = some recI)
    (hdstnone : is.fs.ino (is.BlobPath repo dg) = none)
    (hne : is.BlobUploadPath repo uuid ≠ is.BlobPath repo dg) :
    ImageStore.FinishBlobUpload hash is repo uuid digest
      = (none, { is with
          fs := ((is.fs.mkdirAll [is.rootDir, repo, "blobs", dg.alg]).setPath
                   (is.BlobPath repo dg) recI).removePath
                   (is.BlobUploadPath repo uuid) }) := by
  have e2 : (2 : Nat) = Nat.succ 1 := rfl
  simp only [ImageStore.BlobUploadPath, ImageStore.BlobPath] at hcontent hsrcino hdstnone hne ⊢
  simp only [ImageStore.FinishBlobUpload, hp, hcontent, hh, ne_eq, not_true_eq_false,
    if_false, ite_false, ImageStore.DedupeBlob]
  rw [e2]
  rw [dedupeBlobLoop_hit _ _ _ _ _ rec0 recI (by simpa using hc) (by simpa using hrec)]
  have hlink : ((is.fs.mkdirAll [is.rootDir, repo, "blobs", dg.alg]).link
      (is.rootDir :: rec0) [is.rootDir, repo, "blobs", dg.alg, dg.enc])
      = some ((is.fs.mkdirAll [is.rootDir, repo, "blobs", dg.alg]).setPath
                [is.rootDir, repo, "blobs", dg.alg, dg.enc] recI) := by
    simp [Fs.link, hrec, Fs.fileExists, hdstnone]
  have hrem : (((is.fs.mkdirAll [is.rootDir, repo, "blobs", dg.alg]).setPath
      [is.rootDir, repo, "blobs", dg.alg, dg.enc] recI).remove
      [is.rootDir, repo, ".uploads", uuid])
      = some (((is.fs.mkdirAll [is.rootDir, repo, "blobs", dg.alg]).setPath
                 [is.rootDir, repo, "blobs", dg.alg, dg.enc] recI).removePath
                 [is.rootDir, repo, ".uploads", uuid]) := by
    simp [Fs.remove, Fs.fileExists, Fs.ino_setPath_other _ recI hne, hsrcino]
  simp [hdstnone, hlink, hrem, hded, hcontent, hh, ImageStore.BlobPath,
    ImageStore.BlobUploadPath]

/-- C2: with dedupe enabled and no record yet for the digest, two finalize
calls for the same digest in two different repositories both succeed; the
second placement hard-links the canonical copy recorded by the first, so both
content-addressed blob paths exist and are bound to the same inode. -/
theorem c2_dedupe_shares_inode (hash : Bytes → DigestV) (is : ImageStore)
    (r1 r2 u1 u2 digest : String) (dg : DigestV) (b : Bytes)
    (hded : is.dedupe = true)
    (hp : parseDigest digest = some dg)
    (hh : hash b = dg)
    (hr : r1 ≠ r2)
    (hc : is.cache.GetBlob (digStr dg) = none)
    (h1 : is.fs.content (is.BlobUploadPath r1 u1) = some b)
    (h2 : is.fs.content (is.BlobUploadPath r2 u2) = some b)
    (hd2 : is.fs.ino (is.BlobPath r2 dg) = none) :
    (ImageStore.FinishBlobUpload hash is r1 u1 digest).1 = none ∧
    (ImageStore.FinishBlobUpload hash
        (ImageStore.FinishBlobUpload hash is r1 u1 digest).2 r2 u2 digest).1 = none ∧
    ∃ i,
      (ImageStore.FinishBlobUpload hash
          (ImageStore.FinishBlobUpload hash is r1 u1 digest).2 r2 u2 digest).2.fs.ino
          (is.BlobPath r1 dg) = some i ∧
      (ImageStore.FinishBlobUpload hash
          (ImageStore.FinishBlobUpload hash is r1 u1 digest).2 r2 u2 digest).2.fs.ino
          (is.BlobPath r2 dg) = some i := by
  obtain ⟨i1, hi1, -⟩ := Fs.content_some _ _ _ h1
  obtain ⟨i2, hi2, -⟩ := Fs.content_some _ _ _ h2
  have hr' : r2 ≠ r1 := Ne.symm hr
  have e1 := finish_miss hash is r1 u1 digest dg b i1 hded hp hh h1 hi1 hc
  simp only [ImageStore.BlobPath, ImageStore.BlobUploadPath] at e1 h1 h2 hd2 hi1 hi2 ⊢
  set st1 : ImageStore :=
    { is with
      cache := is.cache.PutBlob is.rootDir (digStr dg)
        [is.rootDir, r1, "blobs", dg.alg, dg.enc],
      fs := ((is.fs.mkdirAll [is.rootDir, r1, "blobs", dg.alg]).removePath
               [is.rootDir, r1, ".uploads", u1]).setPath
               [is.rootDir, r1, "blobs", dg.alg, dg.enc] i1 } with hst1
  have n_src2_dst1 : ([is.rootDir, r2, ".uploads", u2] : Path)
      ≠ [is.rootDir, r1, "blobs", dg.alg, dg.enc] := by simp
  have n_src2_src1 : ([is.rootDir, r2, ".uploads", u2] : Path)
      ≠ [is.rootDir, r1, ".uploads", u1] := by simp [hr']
  have n_dst2_dst1 : ([is.rootDir, r2, "blobs", dg.alg, dg.enc] : Path)
      ≠ [is.rootDir, r1, "blobs", dg.alg, dg.enc] := by simp [hr']
  have n_dst2_src1 : ([is.rootDir, r2, "blobs", dg.alg, dg.enc] : Path)
      ≠ [is.rootDir, r1, ".uploads", u1] := by simp
  have n_src2_dst2 : ([is.rootDir, r2, ".uploads", u2] : Path)
      ≠ [is.rootDir, r2, "blobs", dg.alg, dg.enc] := by simp
  have s1root : st1.rootDir = is.rootDir := by rw [hst1]
  have s1ded : st1.dedupe = true := by rw [hst1]; exact hded
  have s1cache : st1.cache.GetBlob (digStr dg)
      = some [r1, "blobs", dg.alg, dg.enc] := by
    rw [hst1]
    simp
  have s1content : st1.fs.content [is.rootDir, r2, ".uploads", u2] = some b := by
    rw [hst1]
    rw [Fs.content_setPath_other _ _ n_src2_dst1,
        Fs.content_removePath_other _ n_src2_src1, Fs.content_mkdirAll]
    exact h2
  have s1srcino : st1.fs.ino [is.rootDir, r2, ".uploads", u2] = some i2 := by
    rw [hst1]
    rw [Fs.ino_setPath_other _ _ n_src2_dst1,
        Fs.ino_removePath_other _ n_src2_src1, Fs.ino_mkdirAll]
    exact hi2
  have s1rec : st1.fs.ino [is.rootDir, r1, "blobs", dg.alg, dg.enc] = some i1 := by
    rw [hst1]
    exact Fs.ino_setPath_self _ _ _
  have s1dstnone : st1.fs.ino [is.rootDir, r2, "blobs", dg.alg, dg.enc] = none := by
    rw [hst1]
    rw [Fs.ino_setPath_other _ _ n_dst2_dst1,
        Fs.ino_removePath_other _ n_dst2_src1, Fs.ino_mkdirAll]
    exact hd2
  have e2 := finish_hit_link hash st1 r2 u2 digest dg b
    [r1, "blobs", dg.alg, dg.enc] i1 i2 s1ded hp hh s1content s1srcino s1cache
    s1rec s1dstnone n_src2_dst2
  have goal2 : (ImageStore.FinishBlobUpload hash st1 r2 u2 digest).1 = none := by
    rw [e2]
  have goal3a : (ImageStore.FinishBlobUpload hash st1 r2 u2 digest).2.fs.ino
      [is.rootDir, r1, "blobs", dg.alg, dg.enc] = some i1 := by
    rw [e2]
    simp only [ImageStore.BlobPath, ImageStore.BlobUploadPath, s1root]
    rw [Fs.ino_removePath_other _ (Ne.symm n_src2_dst1),
        Fs.ino_setPath_other _ _ (Ne.symm n_dst2_dst1), Fs.ino_mkdirAll]
    exact s1rec
  have goal3b : (ImageStore.FinishBlobUpload hash st1 r2 u2 digest).2.fs.ino
      [is.rootDir, r2, "blobs", dg.alg, dg.enc] = some i1 := by
    rw [e2]
    simp only [ImageStore.BlobPath, ImageStore.BlobUploadPath, s1root]
    rw [Fs.ino_removePath_other _ (Ne.symm n_src2_dst2)]
    exact Fs.ino_setPath_self _ _ _
  refine ⟨by rw [e1], ?_, i1, ?_, ?_⟩
  · rw [e1]
    exact goal2
  · rw [e1]
    exact goal3a
  · rw [e1]
    exact goal3b

/-- A store with dedupe enabled, an empty dedupe index and the same one-byte
body uploaded as scratch files in `repo1` and `repo2`. -/
def stDedup : ImageStore :=
  { rootDir := "zot", dedupe := true, cache := { entries := [] },
    fs := { paths := [(["zot", "repo1", ".uploads", "u1"], 1),
                      (["zot", "repo2", ".uploads", "u2"], 2)],
            inodes := [(1, [7]), (2, [7])], dirs := [], nextIno := 3 } }

/-- Witness for C2: finalizing the same body into `repo1` then `repo2` leaves
both blob paths bound to one inode. -/
theorem c2_dedupe_shares_inode_wit :
    (ImageStore.FinishBlobUpload hashConstA stDedup "repo1" "u1" dstrA).1 = none ∧
    (ImageStore.FinishBlobUpload hashConstA
        (ImageStore.FinishBlobUpload hashConstA stDedup "repo1" "u1" dstrA).2
        "repo2" "u2" dstrA).1 = none ∧
    ∃ i,
      (ImageStore.FinishBlobUpload hashConstA
          (ImageStore.FinishBlobUpload hashConstA stDedup "repo1" "u1" dstrA).2
          "repo2" "u2" dstrA).2.fs.ino (stDedup.BlobPath "repo1" dgA) = some i ∧
      (ImageStore.FinishBlobUpload hashConstA
          (ImageStore.FinishBlobUpload hashConstA stDedup "repo1" "u1" dstrA).2
          "repo2" "u2" dstrA).2.fs.ino (stDedup.BlobPath "repo2" dgA) = some i :=
  c2_dedupe_shares_inode hashConstA stDedup "repo1" "repo2" "u1" "u2" dstrA dgA [7]
    rfl (by decide) rfl (by decide) rfl (by decide) (by decide) (by decide)

/-- C4 (amended): in the dedupe hit path, when the destination blob path
already exists as a different inode than the canonical copy, the hard-link
call fails and `FinishBlobUpload` returns that error — the placement does
not treat it as success — and the scratch file is not unlinked. -/
theorem c4_dedupe_link_collision (hash : Bytes → DigestV) (is : ImageStore)
    (repo uuid digest : String) (dg : DigestV) (b : Bytes) (rec0 : Path)
    (i j : Nat)
    (hded : is.dedupe = true)
    (hp : parseDigest digest = some dg)
    (hh : hash b = dg)
    (hs : is.fs.content (is.BlobUploadPath repo uuid) = some b)
    (hc : is.cache.GetBlob (digStr dg) = some rec0)
    (hrec : is.fs.ino (is.rootDir :: rec0) = some i)
    (hdst : is.fs.ino (is.BlobPath repo dg) = some j)
    (hij : j ≠ i) :
    (ImageStore.FinishBlobUpload hash is repo uuid digest).1 = some ZotErr.ioError ∧
    (ImageStore.FinishBlobUpload hash is repo uuid digest).2.fs.content
        (is.BlobUploadPath repo uuid) = some b := by
  have e2 : (2 : Nat) = Nat.succ 1 := rfl
  simp only [ImageStore.BlobUploadPath, ImageStore.BlobPath] at hs hdst ⊢
  have hfin : ImageStore.FinishBlobUpload hash is repo uuid digest
      = (some ZotErr.ioError,
         { is with fs := is.fs.mkdirAll [is.rootDir, repo, "blobs", dg.alg] }) := by
    simp only [ImageStore.FinishBlobUpload, ImageStore.BlobUploadPath,
      ImageStore.BlobPath, hp, hs, hh, ne_eq, not_true_eq_false, if_false,
      ite_false, ImageStore.DedupeBlob]
    rw [e2]
    rw [dedupeBlobLoop_hit _ _ _ _ _ rec0 i (by simpa using hc) (by simpa using hrec)]
    have hlinkfail : (is.fs.mkdirAll [is.rootDir, repo, "blobs", dg.alg]).link
        (is.rootDir :: rec0) [is.rootDir, repo, "blobs", dg.alg, dg.enc] = none := by
      simp [Fs.link, hrec, Fs.fileExists, hdst]
    simp [hdst, hij, hlinkfail, hs, hh, hded, ImageStore.BlobPath,
      ImageStore.BlobUploadPath]
  rw [hfin]
  exact ⟨rfl, by simpa using hs⟩

/-- The canonical dedupe record for `repo1`, relative to the store root. -/
def relCanon : Path := ["repo1", "blobs", "sha256", encA]

/-- A store in the dedupe hit scenario of C4: the index records `repo1`'s
copy (inode 1), while `repo2`'s blob path already exists as a different
inode (2) and `repo2` holds a scratch file (inode 3). -/
def stCollide : ImageStore :=
  { rootDir := "zot", dedupe := true,
    cache := { entries := [(dstrA, relCanon)] },
    fs := { paths := [(["zot", "repo1", "blobs", "sha256", encA], 1),
                      (["zot", "repo2", "blobs", "sha256", encA], 2),
                      (["zot", "repo2", ".uploads", "u2"], 3)],
            inodes := [(1, [7]), (2, [7]), (3, [7])],
            dirs := [], nextIno := 4 } }

/-- C4 counterexample: in the hit path with the destination already present
as a different inode, the failing link call is not treated as success —
finalize returns an error and the scratch file is still there. -/
theorem c4_dedupe_link_collision_cex :
    (ImageStore.FinishBlobUpload hashConstA stCollide "repo2" "u2" dstrA).1
      = some ZotErr.ioError ∧
    (ImageStore.FinishBlobUpload hashConstA stCollide "repo2" "u2" dstrA).2.fs.ino
        (stCollide.BlobUploadPath "repo2" "u2") = some 3 := by
  constructor
  · rfl
  · rfl

/-- Witness for C4 (amended), at the `stCollide` scenario. -/
theorem c4_dedupe_link_collision_wit :
    (ImageStore.FinishBlobUpload hashConstA stCollide "repo2" "u2" dstrA).1
      = some ZotErr.ioError ∧
    (ImageStore.FinishBlobUpload hashConstA stCollide "repo2" "u2" dstrA).2.fs.content
        (stCollide.BlobUploadPath "repo2" "u2") = some [7] :=
  c4_dedupe_link_collision hashConstA stCollide "repo2" "u2" dstrA dgA [7]
    relCanon 1 2 rfl (by decide) rfl (by decide) (by decide) (by decide)
    (by decide) (by decide)

end Zot
